import Mathlib

/-!
Shallow embedding of the shape-placement engine and composite texture
generator of the Cartographers repository (src/map.rs, src/terrain.rs,
src/cards.rs, src/resource_tracking.rs, src/asset_manager.rs).

Machine floats (`f32`) appearing in the snapping code are modelled by exact
rationals.  For the four discrete rotation angles the degree→radian→degree
round trip is exact in `f32`.  The division `choice_size / cell_size` is
NOT exact in `f32` for every cell size (the rounded quotient can land one
ulp below the integer tile count, changing the floored reference cell), so
the snapping model also exists in a form that takes the computed size
ratio as an explicit input (`snapOccupiedTilesOfRatio`), and the general
reference-tile statement carries an explicit ratio-exactness hypothesis.
The concrete 2×1 domino scenario has a power-of-two bounding box, for
which the round trip is exact at every cell size, so its unit-cell-size
instantiation is faithful.  `usize` is modelled by `Nat`, `isize` by
`Int`.
-/

/-- Terrain enumeration from src/terrain.rs. -/
inductive Terrain where
  | none
  | forest
  | village
  | farm
  | water
  | monster
  | mountain
deriving DecidableEq, Repr

/-- A grid cell, from `struct Cell` in src/map.rs: a terrain and an
`index : (usize, usize)` (row, column). -/
structure Cell where
  terrain : Terrain
  index : Nat × Nat
deriving DecidableEq, Repr

/-- `tiles.iter().map(|(row, _)| *row + 1).max()` from `Choice::size`
(src/terrain.rs); `0` stands for the `None` of an empty list, which the
source `expect`s away. -/
def maxRowPlus1 (tiles : List (Nat × Nat)) : Nat :=
  (tiles.map (fun t => t.1 + 1)).foldr max 0

/-- `tiles.iter().map(|(_, column)| *column + 1).max()` from `Choice::size`
(src/terrain.rs). -/
def maxColPlus1 (tiles : List (Nat × Nat)) : Nat :=
  (tiles.map (fun t => t.2 + 1)).foldr max 0

/-- `Choice::size` from src/terrain.rs:
`Vec2::new(max_column * cell_size.x, max_row * cell_size.y)`.  The `f32`
products are modelled as exact rational products; statements that depend
on the subsequent division being exact say so via an explicit ratio
hypothesis (see `snapOccupiedTilesOfRatio`). -/
def choiceSize (tiles : List (Nat × Nat)) (cellSize : ℚ × ℚ) : ℚ × ℚ :=
  (maxColPlus1 tiles * cellSize.1, maxRowPlus1 tiles * cellSize.2)

/-- The reference cell of `snap_selected_choice_to_cell` (src/map.rs line 85):
`(((choice_size / grid.cell_size).yx() - Vec2::X) / 2.0).floor()`, then
each component cast `as usize`. `.yx()` swaps the components and
`Vec2::X = (1, 0)`.  The division is exact rational division, which
matches the program only at cell sizes where the `f32` round trip
`fl(fl(count * cs) / cs)` returns the tile count exactly; the
ratio-parameterised `referenceCellOfRatio` below drops that idealisation
by taking the computed quotient as an input. -/
def referenceCell (tiles : List (Nat × Nat)) (cellSize : ℚ × ℚ) : Nat × Nat :=
  let d : ℚ × ℚ := ((choiceSize tiles cellSize).1 / cellSize.1,
                    (choiceSize tiles cellSize).2 / cellSize.2)
  let yx : ℚ × ℚ := (d.2, d.1)
  ((⌊(yx.1 - 1) / 2⌋).toNat, (⌊yx.2 / 2⌋).toNat)

/-- The rotation branch of `snap_selected_choice_to_cell`
(src/map.rs lines 108–117), keyed on the rotation angle in degrees
(the `f32` degree→radian→degree round trip is exact at 0/90/180/270). -/
def rotateShifted (deg : Nat) (shifted : Int × Int) : Int × Int :=
  if deg = 90 then (shifted.2, -shifted.1)
  else if deg = 180 then (-shifted.1, -shifted.2)
  else if deg = 270 then (-shifted.2, shifted.1)
  else shifted

/-- `shifted_tiles` of `snap_selected_choice_to_cell` (src/map.rs
lines 98–118): each tile offset minus the reference cell, then rotated. -/
def shiftedTiles (tiles : List (Nat × Nat)) (deg : Nat) (cellSize : ℚ × ℚ) :
    List (Int × Int) :=
  let ref := referenceCell tiles cellSize
  tiles.map (fun t =>
    rotateShifted deg ((t.1 : Int) - (ref.1 : Int), (t.2 : Int) - (ref.2 : Int)))

/-- `occupied_tiles` of `snap_selected_choice_to_cell` (src/map.rs
lines 120–123): `(-row + cell.index.0, column + cell.index.1)` applied to
every shifted tile, where `cell` is the hovered cell. -/
def snapOccupiedTiles (tiles : List (Nat × Nat)) (deg : Nat)
    (cellSize : ℚ × ℚ) (cell : Nat × Nat) : List (Int × Int) :=
  (shiftedTiles tiles deg cellSize).map
    (fun p => (-p.1 + (cell.1 : Int), p.2 + (cell.2 : Int)))

/-- The spec's reference tile, following the wording of claim C1 / §4.3:
the tile at `floor((height_in_tiles − 1)/2)` rows from the top and
column 0 of the pre-rotation bounding box. -/
def specReferenceTile (tiles : List (Nat × Nat)) : Nat × Nat :=
  ((maxRowPlus1 tiles - 1) / 2, 0)

/-- `occupiedCells` computed exactly as the spec's anchor/hover wording
says, parameterised by the reference tile: subtract the reference from
every tile offset, rotate, then add the hovered cell's index with the row
component inverted. -/
def specOccupiedCellsWithRef (refTile : Nat × Nat) (tiles : List (Nat × Nat))
    (deg : Nat) (cell : Nat × Nat) : List (Int × Int) :=
  tiles.map (fun t =>
    let s : Int × Int := ((t.1 : Int) - (refTile.1 : Int),
                          (t.2 : Int) - (refTile.2 : Int))
    let r := rotateShifted deg s
    ((cell.1 : Int) - r.1, (cell.2 : Int) + r.2))

/-- `occupiedCells` per the literal spec wording of claim C1 (reference
tile in column 0). -/
def specOccupiedCells (tiles : List (Nat × Nat)) (deg : Nat)
    (cell : Nat × Nat) : List (Int × Int) :=
  specOccupiedCellsWithRef (specReferenceTile tiles) tiles deg cell

/-- The reference tile the code actually uses, written arithmetically:
row `(height_in_tiles − 1) / 2`, column `width_in_tiles / 2`
(both Nat floor divisions). -/
def amendedReferenceTile (tiles : List (Nat × Nat)) : Nat × Nat :=
  ((maxRowPlus1 tiles - 1) / 2, maxColPlus1 tiles / 2)

/-- The reference cell computed from the size ratio
`choice_size / grid.cell_size` the program obtained, whatever `f32`
rounding produced it: `ratio.1` is the width component (tile-count-valued
when exact), `ratio.2` the height component.  This is the part of
src/map.rs line 85 after the division. -/
def referenceCellOfRatio (ratio : ℚ × ℚ) : Nat × Nat :=
  let yx : ℚ × ℚ := (ratio.2, ratio.1)
  ((⌊(yx.1 - 1) / 2⌋).toNat, (⌊yx.2 / 2⌋).toNat)

/-- `occupied_tiles` of `snap_selected_choice_to_cell` with the `f32`
size ratio as an explicit input: shift by the reference cell derived from
the ratio, rotate, then add the hovered cell's index with the row
inverted (src/map.rs lines 98–123). -/
def snapOccupiedTilesOfRatio (tiles : List (Nat × Nat)) (deg : Nat)
    (ratio : ℚ × ℚ) (cell : Nat × Nat) : List (Int × Int) :=
  let ref := referenceCellOfRatio ratio
  (tiles.map (fun t =>
    rotateShifted deg ((t.1 : Int) - (ref.1 : Int),
      (t.2 : Int) - (ref.2 : Int)))).map
    (fun p => (-p.1 + (cell.1 : Int), p.2 + (cell.2 : Int)))

/-- The bounding box of a non-empty tile set has positive height. -/
lemma one_le_maxRowPlus1 {tiles : List (Nat × Nat)} (hne : tiles ≠ []) :
    1 ≤ maxRowPlus1 tiles := by
  match tiles with
  | [] => exact absurd rfl hne
  | t :: ts =>
      have : maxRowPlus1 (t :: ts) = max (t.1 + 1) (maxRowPlus1 ts) := rfl
      rw [this]
      exact le_max_of_le_left (Nat.succ_le_succ (Nat.zero_le _))

/-- Floor of a natural-number quotient over ℚ, `toNat`-ed, is Nat division. -/
lemma floor_natCast_div_two_toNat (n : Nat) :
    (⌊((n : ℚ)) / 2⌋).toNat = n / 2 := by
  have h2 : ((2 : ℕ) : ℚ) = (2 : ℚ) := by norm_cast
  rw [Int.floor_toNat, ← h2, Nat.floor_div_eq_div]

/-- With a non-degenerate cell size and a non-empty tile list, the
reference cell computed through rational (float-modelled) arithmetic is
row `(height_in_tiles − 1) / 2`, column `width_in_tiles / 2`. -/
lemma referenceCell_eq_amended (tiles : List (Nat × Nat)) (cellSize : ℚ × ℚ)
    (h1 : cellSize.1 ≠ 0) (h2 : cellSize.2 ≠ 0) (hne : tiles ≠ []) :
    referenceCell tiles cellSize = amendedReferenceTile tiles := by
  have hw : (choiceSize tiles cellSize).1 / cellSize.1 = (maxColPlus1 tiles : ℚ) := by
    simp only [choiceSize]
    exact mul_div_cancel_right₀ _ h1
  have hh : (choiceSize tiles cellSize).2 / cellSize.2 = (maxRowPlus1 tiles : ℚ) := by
    simp only [choiceSize]
    exact mul_div_cancel_right₀ _ h2
  have hrow : ((maxRowPlus1 tiles : ℚ) - 1) = ((maxRowPlus1 tiles - 1 : ℕ) : ℚ) := by
    rw [Nat.cast_sub (one_le_maxRowPlus1 hne)]
    norm_num
  simp only [referenceCell, amendedReferenceTile, hw, hh, hrow,
    floor_natCast_div_two_toNat]

/-- `snap_selected_choice_to_cell`'s occupied tiles coincide with the
spec-style formula instantiated at the corrected reference tile. -/
lemma snapOccupiedTiles_eq_amendedRef (tiles : List (Nat × Nat)) (deg : Nat)
    (cellSize : ℚ × ℚ) (cell : Nat × Nat)
    (h1 : cellSize.1 ≠ 0) (h2 : cellSize.2 ≠ 0) (hne : tiles ≠ []) :
    snapOccupiedTiles tiles deg cellSize cell =
      specOccupiedCellsWithRef (amendedReferenceTile tiles) tiles deg cell := by
  simp only [snapOccupiedTiles, shiftedTiles,
    referenceCell_eq_amended tiles cellSize h1 h2 hne,
    specOccupiedCellsWithRef, List.map_map]
  apply List.map_congr_left
  intro t _
  simp only [Function.comp, Prod.mk.injEq]
  constructor <;> ring

/-- The cell-size pipeline is the ratio pipeline applied to the exact
rational quotient: the two embeddings agree by definition, so the ratio
form strictly generalises the cell-size form. -/
lemma snapOccupiedTiles_eq_ofRatio (tiles : List (Nat × Nat)) (deg : Nat)
    (cellSize : ℚ × ℚ) (cell : Nat × Nat) :
    snapOccupiedTiles tiles deg cellSize cell
      = snapOccupiedTilesOfRatio tiles deg
        ((choiceSize tiles cellSize).1 / cellSize.1,
         (choiceSize tiles cellSize).2 / cellSize.2) cell := rfl

/-- When the size ratio is exactly the tile counts, the reference cell is
row `(height_in_tiles − 1) / 2`, column `width_in_tiles / 2`. -/
lemma referenceCellOfRatio_exact (tiles : List (Nat × Nat))
    (hne : tiles ≠ []) :
    referenceCellOfRatio ((maxColPlus1 tiles : ℚ), (maxRowPlus1 tiles : ℚ))
      = amendedReferenceTile tiles := by
  have hrow : ((maxRowPlus1 tiles : ℚ) - 1)
      = ((maxRowPlus1 tiles - 1 : ℕ) : ℚ) := by
    rw [Nat.cast_sub (one_le_maxRowPlus1 hne)]
    norm_num
  simp only [referenceCellOfRatio, amendedReferenceTile, hrow,
    floor_natCast_div_two_toNat]

-- Grid setup, from `setup` in src/map.rs (lines 134–199).

/-- The preset mountain cells of `setup` in src/map.rs. -/
def mountains : List (Nat × Nat) := [(1, 3), (2, 8), (5, 5), (8, 2), (9, 7)]

/-- The grid dimension of `setup` in src/map.rs: `(11, 11)`. -/
def mapDimension : Nat × Nat := (11, 11)

/-- The cells spawned by `setup` in src/map.rs: one cell per
`(row, column)` with `column in 0..dimension.0`, `row in 0..dimension.1`,
terrain `Mountain` on the preset mountain indices and `None` elsewhere. -/
def setupCells : List Cell :=
  (List.range mapDimension.1).flatMap (fun column =>
    (List.range mapDimension.2).map (fun row =>
      { terrain := if (row, column) ∈ mountains then Terrain.mountain
                   else Terrain.none,
        index := (row, column) }))

-- Validity, from `highlight_selected_choice` in src/map.rs (lines 201–232).

/-- `outside_grid` from `highlight_selected_choice`: some occupied tile has
`row < 0 || column < 0 || row >= dimension.0 || column >= dimension.1`. -/
def outsideGrid (dimension : Nat × Nat) (occupied : List (Int × Int)) : Bool :=
  occupied.any (fun t =>
    t.1 < 0 || t.2 < 0 || (dimension.1 : Int) ≤ t.1 || (dimension.2 : Int) ≤ t.2)

/-- `placed_cells` from `highlight_selected_choice`: the indices (as `isize`
pairs) of the cells whose terrain is not `None`. -/
def placedCells (cells : List Cell) : List (Int × Int) :=
  (cells.filter (fun c => c.terrain ≠ Terrain.none)).map
    (fun c => ((c.index.1 : Int), (c.index.2 : Int)))

/-- `colliding_with_cell` from `highlight_selected_choice`. -/
def collidingWithCell (cells : List Cell) (occupied : List (Int × Int)) : Bool :=
  occupied.any (fun t => (placedCells cells).contains t)

/-- The validity computed by `highlight_selected_choice`: the sprite keeps
full alpha (candidate valid) iff neither `outside_grid` nor
`colliding_with_cell` holds. -/
def highlightValid (cells : List Cell) (dimension : Nat × Nat)
    (occupied : List (Int × Int)) : Bool :=
  !(outsideGrid dimension occupied || collidingWithCell cells occupied)

/-- C1 (counterexample): the literal claim — reference tile in column 0 of
the bounding box — does not match the code: for the horizontal domino
`{(0,0),(0,1)}` at rotation 0° hovered at `(5,5)` with unit cell size, the
code's occupied tiles differ from the column-0 formula's. -/
theorem snap_reference_column_counterexample :
    snapOccupiedTiles [(0, 0), (0, 1)] 0 (1, 1) (5, 5) ≠
      specOccupiedCells [(0, 0), (0, 1)] 0 (5, 5) := by
  rw [snapOccupiedTiles_eq_amendedRef [(0, 0), (0, 1)] 0 (1, 1) (5, 5)
    (by norm_num) (by norm_num) (by decide)]
  decide

/-- C1 (amended): for every choice with a non-empty tile list, every
rotation and every hovered cell, whenever the `f32`-computed size ratio
`choice_size / cell_size` equals the exact tile counts
`(width_in_tiles, height_in_tiles)` — true e.g. at unit or power-of-two
cell sizes, but not at every cell size — the code computes `occupiedCells`
by taking the reference tile at local position
`(floor((height_in_tiles − 1)/2), floor(width_in_tiles / 2))` of the
pre-rotation bounding box (not column 0), subtracting it from every tile
offset, rotating, and adding the hovered cell's index with the row
component inverted. -/
theorem snap_occupied_matches_amended_reference (tiles : List (Nat × Nat))
    (deg : Nat) (ratio : ℚ × ℚ) (cell : Nat × Nat)
    (hexact : ratio = ((maxColPlus1 tiles : ℚ), (maxRowPlus1 tiles : ℚ)))
    (hne : tiles ≠ []) :
    snapOccupiedTilesOfRatio tiles deg ratio cell =
      specOccupiedCellsWithRef (amendedReferenceTile tiles) tiles deg cell := by
  subst hexact
  simp only [snapOccupiedTilesOfRatio, referenceCellOfRatio_exact tiles hne,
    specOccupiedCellsWithRef, List.map_map]
  apply List.map_congr_left
  intro t _
  simp only [Function.comp, Prod.mk.injEq]
  constructor <;> ring

/-- Witness for C1's amended theorem at the horizontal domino, whose 2×1
bounding box makes the size ratio exact. -/
theorem snap_occupied_matches_amended_reference_witness :
    (((maxColPlus1 [(0, 0), (0, 1)] : ℚ),
        (maxRowPlus1 [(0, 0), (0, 1)] : ℚ)) : ℚ × ℚ)
        = ((maxColPlus1 [(0, 0), (0, 1)] : ℚ),
          (maxRowPlus1 [(0, 0), (0, 1)] : ℚ)) ∧
      ([(0, 0), (0, 1)] : List (Nat × Nat)) ≠ [] ∧
      snapOccupiedTilesOfRatio [(0, 0), (0, 1)] 90
        ((maxColPlus1 [(0, 0), (0, 1)] : ℚ),
          (maxRowPlus1 [(0, 0), (0, 1)] : ℚ)) (5, 5) =
        specOccupiedCellsWithRef (amendedReferenceTile [(0, 0), (0, 1)])
          [(0, 0), (0, 1)] 90 (5, 5) :=
  ⟨rfl, by simp,
    snap_occupied_matches_amended_reference [(0, 0), (0, 1)] 90
      ((maxColPlus1 [(0, 0), (0, 1)] : ℚ),
        (maxRowPlus1 [(0, 0), (0, 1)] : ℚ)) (5, 5) rfl (by simp)⟩

/-- C2 (counterexample): in the claimed scenario (11×11 grid with its preset
mountain cells, horizontal domino, rotation 0°, hovered cell (5,5), unit
cell size) the code does not produce `{(5,5),(5,6)}` — the cell `(5,6)` is
not occupied — and validity is `false`, not `true` (the hovered cell (5,5)
is a preset Mountain). -/
theorem domino_scenario_counterexample :
    (5, 6) ∉ snapOccupiedTiles [(0, 0), (0, 1)] 0 (1, 1) (5, 5) ∧
      highlightValid setupCells mapDimension
        (snapOccupiedTiles [(0, 0), (0, 1)] 0 (1, 1) (5, 5)) = false := by
  rw [snapOccupiedTiles_eq_amendedRef [(0, 0), (0, 1)] 0 (1, 1) (5, 5)
    (by norm_num) (by norm_num) (by decide)]
  decide

/-- C2 (amended): on the 11×11 grid with its preset mountain cells, the
horizontal domino `{(0,0),(0,1)}` hovered at `(5,5)` at 0° yields occupied
tiles `{(5,4),(5,5)}` and `valid = false` (cell `(5,5)` is a preset
Mountain); at 90° it yields `{(6,5),(5,5)}`, again `valid = false`; at 90°
hovered at `(10,10)` it yields `{(11,10),(10,10)}`, one cell out of bounds,
so `valid = false`. -/
theorem domino_scenario_amended :
    snapOccupiedTiles [(0, 0), (0, 1)] 0 (1, 1) (5, 5) = [(5, 4), (5, 5)] ∧
      highlightValid setupCells mapDimension [(5, 4), (5, 5)] = false ∧
      snapOccupiedTiles [(0, 0), (0, 1)] 90 (1, 1) (5, 5) = [(6, 5), (5, 5)] ∧
      highlightValid setupCells mapDimension [(6, 5), (5, 5)] = false ∧
      snapOccupiedTiles [(0, 0), (0, 1)] 90 (1, 1) (10, 10) =
        [(11, 10), (10, 10)] ∧
      highlightValid setupCells mapDimension [(11, 10), (10, 10)] = false := by
  rw [snapOccupiedTiles_eq_amendedRef [(0, 0), (0, 1)] 0 (1, 1) (5, 5)
      (by norm_num) (by norm_num) (by decide),
    snapOccupiedTiles_eq_amendedRef [(0, 0), (0, 1)] 90 (1, 1) (5, 5)
      (by norm_num) (by norm_num) (by decide),
    snapOccupiedTiles_eq_amendedRef [(0, 0), (0, 1)] 90 (1, 1) (10, 10)
      (by norm_num) (by norm_num) (by decide)]
  decide

/-- C3: the rotation transform of the anchor/hover update maps a
reference-relative offset `(r, c)` to `(c, −r)` at 90°, `(−r, −c)` at 180°,
`(−c, r)` at 270°, and is the identity at 0°. -/
theorem rotation_transform_formulas (r c : Int) :
    rotateShifted 90 (r, c) = (c, -r) ∧
      rotateShifted 180 (r, c) = (-r, -c) ∧
      rotateShifted 270 (r, c) = (-c, r) ∧
      rotateShifted 0 (r, c) = (r, c) := by
  simp [rotateShifted]

/-- C9: the rotation transform is a group of order 4 on tile offsets:
the 90° map applied four times is the identity, and the 180° map applied
twice is the identity. -/
theorem rotation_group_of_order_four (p : Int × Int) :
    rotateShifted 90 (rotateShifted 90 (rotateShifted 90 (rotateShifted 90 p)))
        = p ∧
      rotateShifted 180 (rotateShifted 180 p) = p := by
  simp [rotateShifted]

/-- C4: whenever occupied cells are present, the candidate is invalid iff
some occupied index falls outside `[0, rows) × [0, columns)` or coincides
with a grid cell whose terrain is not `None`; it is valid otherwise. -/
theorem highlightValid_false_iff (cells : List Cell) (dimension : Nat × Nat)
    (occupied : List (Int × Int)) :
    highlightValid cells dimension occupied = false ↔
      (∃ t ∈ occupied, t.1 < 0 ∨ t.2 < 0 ∨
        (dimension.1 : Int) ≤ t.1 ∨ (dimension.2 : Int) ≤ t.2) ∨
      (∃ t ∈ occupied, ∃ c ∈ cells, c.terrain ≠ Terrain.none ∧
        t = ((c.index.1 : Int), (c.index.2 : Int))) := by
  have hsplit : highlightValid cells dimension occupied = false ↔
      (outsideGrid dimension occupied = true ∨
       collidingWithCell cells occupied = true) := by
    rw [highlightValid, Bool.not_eq_false', Bool.or_eq_true]
  rw [hsplit]
  apply or_congr
  · rw [outsideGrid, List.any_eq_true]
    apply exists_congr; intro t
    constructor
    · rintro ⟨ht, hb⟩
      refine ⟨ht, ?_⟩
      simp at hb
      tauto
    · rintro ⟨ht, hb⟩
      refine ⟨ht, ?_⟩
      simp
      tauto
  · rw [collidingWithCell, List.any_eq_true]
    apply exists_congr; intro t
    constructor
    · rintro ⟨ht, hc⟩
      refine ⟨ht, ?_⟩
      have hmem : t ∈ placedCells cells := by simpa [List.elem_iff] using hc
      rcases List.mem_map.mp hmem with ⟨c, hcf, he⟩
      rcases List.mem_filter.mp hcf with ⟨hcc, hterr⟩
      exact ⟨c, hcc, by simpa using hterr, he.symm⟩
    · rintro ⟨ht, c, hcc, hterr, he⟩
      refine ⟨ht, ?_⟩
      have hmem : t ∈ placedCells cells :=
        List.mem_map.mpr ⟨c, List.mem_filter.mpr ⟨hcc, by simpa using hterr⟩,
          he.symm⟩
      simpa [List.elem_iff] using hmem

-- Composite texture generator, from `generate_choice_image` in
-- src/cards.rs (lines 252–298).

/-- A raw pixel byte buffer: a length and the byte at each index.  Reads
beyond `len` never happen in the verified code paths (claim C10). -/
structure Buffer where
  len : Nat
  data : Nat → Nat

/-- The slice of a bevy `Image` used by `generate_choice_image`: pixel
width and height, the pixel size in bytes of its texture format, and its
raw data buffer. -/
structure Image where
  width : Nat
  height : Nat
  pixelSize : Nat
  buf : Buffer

/-- Failure modes of the generator: the `expect("tiles")` on an empty tile
set (the spec's `EmptyTileSet`), and an out-of-range slice in the blit loop
(a Rust panic, shown unreachable by claim C10). -/
inductive GenError where
  | emptyTileSet
  | sliceOutOfBounds
deriving DecidableEq, Repr

/-- `choice_data[start..start+len].copy_from_slice(&src[srcStart..srcStart+len])`:
total embedding of the two slice indexings plus the copy; out-of-range
slices surface as an error instead of a Rust panic. -/
def copyFromSlice (dst : Buffer) (dstStart : Nat) (src : Buffer)
    (srcStart len : Nat) : Except GenError Buffer :=
  if dstStart + len ≤ dst.len ∧ srcStart + len ≤ src.len then
    .ok ⟨dst.len, fun i =>
      if dstStart ≤ i ∧ i < dstStart + len then src.data (srcStart + (i - dstStart))
      else dst.data i⟩
  else .error .sliceOutOfBounds

/-- `choice_row_start` of the blit loop (src/cards.rs lines 287–290):
`(choice_row * total_width * terrain_height + choice_column * terrain_width
+ terrain_row * total_width) * pixel_size`. -/
def choiceRowStart (totalWidth terrainHeight terrainWidth pixelSize : Nat)
    (choiceRow column terrainRow : Nat) : Nat :=
  (choiceRow * totalWidth * terrainHeight + column * terrainWidth
    + terrainRow * totalWidth) * pixelSize

/-- One iteration of the outer blit loop of `generate_choice_image`: copy
every scanline of the base tile into the destination band of one tile
offset.  `choice_row` is `(total_height / terrain_height) - row - 1`. -/
def blitTile (terrain : Image) (totalWidth totalHeight : Nat)
    (buf : Buffer) (tile : Nat × Nat) : Except GenError Buffer :=
  let terrainRowLength := terrain.width * terrain.pixelSize
  let choiceRow := totalHeight / terrain.height - tile.1 - 1
  (List.range terrain.height).foldlM (fun b terrainRow =>
    copyFromSlice b
      (choiceRowStart totalWidth terrain.height terrain.width terrain.pixelSize
        choiceRow tile.2 terrainRow)
      terrain.buf (terrainRow * terrainRowLength) terrainRowLength) buf

/-- `generate_choice_image` from src/cards.rs: dimensions from the tile
bounding box, a zero-initialized buffer (`new_fill` with the all-zero
pixel), then the blit loop over all tiles. -/
def generateChoiceImage (tiles : List (Nat × Nat)) (terrain : Image) :
    Except GenError Image :=
  if tiles.isEmpty then .error .emptyTileSet
  else
    let totalWidth := maxColPlus1 tiles * terrain.width
    let totalHeight := maxRowPlus1 tiles * terrain.height
    let init : Buffer := ⟨totalWidth * totalHeight * terrain.pixelSize, fun _ => 0⟩
    (tiles.foldlM (blitTile terrain totalWidth totalHeight) init).map
      (fun buf => ⟨totalWidth, totalHeight, terrain.pixelSize, buf⟩)

/-- The start of scanline `i` of the band a tile offset is blitted into:
row-band `maxRowOffset − row` (i.e. `maxRowPlus1 − row − 1`), column-band
`column`. -/
def scanlineStart (tiles : List (Nat × Nat)) (terrain : Image)
    (tile : Nat × Nat) (i : Nat) : Nat :=
  choiceRowStart (maxColPlus1 tiles * terrain.width) terrain.height
    terrain.width terrain.pixelSize
    (maxRowPlus1 tiles - tile.1 - 1) tile.2 i

/-- Byte index `idx` of the composite lies in the band of `tile`. -/
def inTileBand (tiles : List (Nat × Nat)) (terrain : Image)
    (tile : Nat × Nat) (idx : Nat) : Prop :=
  ∃ i < terrain.height, scanlineStart tiles terrain tile i ≤ idx ∧
    idx < scanlineStart tiles terrain tile i
      + terrain.width * terrain.pixelSize

lemma copyFromSlice_ok {dst src : Buffer} {dstStart srcStart len : Nat}
    (h1 : dstStart + len ≤ dst.len) (h2 : srcStart + len ≤ src.len) :
    copyFromSlice dst dstStart src srcStart len =
      .ok ⟨dst.len, fun i =>
        if dstStart ≤ i ∧ i < dstStart + len then
          src.data (srcStart + (i - dstStart))
        else dst.data i⟩ := by
  rw [copyFromSlice, if_pos ⟨h1, h2⟩]

lemma choiceRowStart_rho (tw H W ps cr c i : Nat) :
    choiceRowStart tw H W ps cr c i = ((cr * H + i) * tw + c * W) * ps := by
  rw [choiceRowStart]; ring

/-- Decomposition `a * H + i` with `i < H` is injective. -/
lemma block_inj {H a b i j : Nat} (hi : i < H) (hj : j < H)
    (h : a * H + i = b * H + j) : a = b ∧ i = j := by
  rcases Nat.lt_trichotomy a b with hab | hab | hab
  · exfalso
    have hlt : a * H + i < b * H + j := by
      calc a * H + i < a * H + H := by omega
        _ = (a + 1) * H := by ring
        _ ≤ b * H := Nat.mul_le_mul_right H hab
        _ ≤ b * H + j := Nat.le_add_right _ _
    omega
  · exact ⟨hab, by subst hab; omega⟩
  · exfalso
    have hlt : b * H + j < a * H + i := by
      calc b * H + j < b * H + H := by omega
        _ = (b + 1) * H := by ring
        _ ≤ a * H := Nat.mul_le_mul_right H hab
        _ ≤ a * H + i := Nat.le_add_right _ _
    omega

/-- Two scanline byte ranges with distinct (pixel-row, column-band) keys
are disjoint. -/
lemma scanline_disjoint {tw W ps : Nat} {r r' c c' : Nat}
    (hc : (c + 1) * W ≤ tw) (hc' : (c' + 1) * W ≤ tw)
    (hne : r ≠ r' ∨ c ≠ c') :
    (r * tw + c * W) * ps + W * ps ≤ (r' * tw + c' * W) * ps ∨
      (r' * tw + c' * W) * ps + W * ps ≤ (r * tw + c * W) * ps := by
  have base : r * tw + c * W + W ≤ r' * tw + c' * W ∨
      r' * tw + c' * W + W ≤ r * tw + c * W := by
    rcases Nat.lt_trichotomy r r' with h | h | h
    · left
      calc r * tw + c * W + W = r * tw + (c + 1) * W := by ring
        _ ≤ r * tw + tw := by omega
        _ = (r + 1) * tw := by ring
        _ ≤ r' * tw := Nat.mul_le_mul_right tw h
        _ ≤ r' * tw + c' * W := Nat.le_add_right _ _
    · subst h
      rcases hne with hr | hcc
      · exact absurd rfl hr
      rcases Nat.lt_trichotomy c c' with h2 | h2 | h2
      · left
        have h3 : (c + 1) * W ≤ c' * W := Nat.mul_le_mul_right W h2
        calc r * tw + c * W + W = r * tw + (c + 1) * W := by ring
          _ ≤ r * tw + c' * W := by omega
      · exact absurd h2 hcc
      · right
        have h3 : (c' + 1) * W ≤ c * W := Nat.mul_le_mul_right W h2
        calc r * tw + c' * W + W = r * tw + (c' + 1) * W := by ring
          _ ≤ r * tw + c * W := by omega
    · right
      calc r' * tw + c' * W + W = r' * tw + (c' + 1) * W := by ring
        _ ≤ r' * tw + tw := by omega
        _ = (r' + 1) * tw := by ring
        _ ≤ r * tw := Nat.mul_le_mul_right tw h
        _ ≤ r * tw + c * W := Nat.le_add_right _ _
  rcases base with h | h
  · left
    calc (r * tw + c * W) * ps + W * ps = (r * tw + c * W + W) * ps := by ring
      _ ≤ (r' * tw + c' * W) * ps := Nat.mul_le_mul_right ps h
  · right
    calc (r' * tw + c' * W) * ps + W * ps = (r' * tw + c' * W + W) * ps := by
          ring
      _ ≤ (r * tw + c * W) * ps := Nat.mul_le_mul_right ps h

/-- Every tile offset's row is within the bounding box height. -/
lemma mem_le_maxRowPlus1 {tiles : List (Nat × Nat)} {t : Nat × Nat}
    (ht : t ∈ tiles) : t.1 + 1 ≤ maxRowPlus1 tiles := by
  induction tiles with
  | nil => cases ht
  | cons x xs ih =>
      rcases List.mem_cons.mp ht with h | h
      · subst h
        exact le_max_left _ _
      · exact le_trans (ih h) (le_max_right _ _)

/-- Every tile offset's column is within the bounding box width. -/
lemma mem_le_maxColPlus1 {tiles : List (Nat × Nat)} {t : Nat × Nat}
    (ht : t ∈ tiles) : t.2 + 1 ≤ maxColPlus1 tiles := by
  induction tiles with
  | nil => cases ht
  | cons x xs ih =>
      rcases List.mem_cons.mp ht with h | h
      · subst h
        exact le_max_left _ _
      · exact le_trans (ih h) (le_max_right _ _)

/-- A destination scanline range stays inside the composite buffer. -/
lemma choiceRowStart_le {tw W H ps Mr : Nat} {cr c i : Nat}
    (hcw : (c + 1) * W ≤ tw) (hrow : cr + 1 ≤ Mr) (hi : i < H) :
    choiceRowStart tw H W ps cr c i + W * ps ≤ tw * (Mr * H) * ps := by
  rw [choiceRowStart_rho]
  have h1 : cr * H + i + 1 ≤ Mr * H := by
    calc cr * H + i + 1 ≤ cr * H + H := by omega
      _ = (cr + 1) * H := by ring
      _ ≤ Mr * H := Nat.mul_le_mul_right H hrow
  have h2 : (cr * H + i) * tw + c * W + W ≤ tw * (Mr * H) := by
    calc (cr * H + i) * tw + c * W + W
        = (cr * H + i) * tw + (c + 1) * W := by ring
      _ ≤ (cr * H + i) * tw + tw := by omega
      _ = (cr * H + i + 1) * tw := by ring
      _ ≤ (Mr * H) * tw := Nat.mul_le_mul_right tw h1
      _ = tw * (Mr * H) := Nat.mul_comm _ _
  calc ((cr * H + i) * tw + c * W) * ps + W * ps
      = ((cr * H + i) * tw + c * W + W) * ps := by ring
    _ ≤ tw * (Mr * H) * ps := Nat.mul_le_mul_right ps h2

/-- The inner blit loop of `generate_choice_image`, processed up to row
`m`: it succeeds, writes each processed scanline verbatim and leaves every
other byte unchanged. -/
lemma copy_rows_spec (src : Buffer) (W H ps tw cr c : Nat) (dst : Buffer)
    (hdst : ∀ i < H, choiceRowStart tw H W ps cr c i + W * ps ≤ dst.len)
    (hsrc : src.len = W * H * ps) (hcw : (c + 1) * W ≤ tw) :
    ∀ m, m ≤ H →
      ∃ out,
        (List.range m).foldlM (fun b row =>
          copyFromSlice b (choiceRowStart tw H W ps cr c row) src
            (row * (W * ps)) (W * ps)) dst = .ok out ∧
        out.len = dst.len ∧
        (∀ i < m, ∀ k < W * ps,
          out.data (choiceRowStart tw H W ps cr c i + k)
            = src.data (i * (W * ps) + k)) ∧
        (∀ idx,
          (∀ i < m, ¬(choiceRowStart tw H W ps cr c i ≤ idx ∧
            idx < choiceRowStart tw H W ps cr c i + W * ps)) →
          out.data idx = dst.data idx) := by
  intro m
  induction m with
  | zero =>
      intro _
      refine ⟨dst, by rw [List.range_zero, List.foldlM_nil]; rfl, rfl, ?_, ?_⟩
      · intro i hi
        omega
      · intro idx _
        rfl
  | succ m ih =>
      intro hm1
      obtain ⟨out, hfold, hlen, hwrit, hkeep⟩ := ih (Nat.le_of_succ_le hm1)
      have hm : m < H := hm1
      have hdb : choiceRowStart tw H W ps cr c m + W * ps ≤ out.len := by
        rw [hlen]
        exact hdst m hm
      have hsb : m * (W * ps) + W * ps ≤ src.len := by
        rw [hsrc]
        calc m * (W * ps) + W * ps = (m + 1) * (W * ps) := by ring
          _ ≤ H * (W * ps) := Nat.mul_le_mul_right _ hm1
          _ = W * H * ps := by ring
      have hcopy := copyFromSlice_ok hdb hsb
      have hsplit :
          (List.range (m + 1)).foldlM (fun b row =>
            copyFromSlice b (choiceRowStart tw H W ps cr c row) src
              (row * (W * ps)) (W * ps)) dst
          = ((List.range m).foldlM (fun b row =>
              copyFromSlice b (choiceRowStart tw H W ps cr c row) src
                (row * (W * ps)) (W * ps)) dst) >>= (fun b =>
              copyFromSlice b (choiceRowStart tw H W ps cr c m) src
                (m * (W * ps)) (W * ps)) := by
        rw [List.range_succ, List.foldlM_append]
        simp [List.foldlM_cons, List.foldlM_nil]
      refine ⟨⟨out.len, fun i =>
        if choiceRowStart tw H W ps cr c m ≤ i ∧
            i < choiceRowStart tw H W ps cr c m + W * ps then
          src.data (m * (W * ps) + (i - choiceRowStart tw H W ps cr c m))
        else out.data i⟩, ?_, hlen, ?_, ?_⟩
      · rw [hsplit, hfold]
        exact hcopy
      · intro i hi k hk
        by_cases him : i = m
        · subst him
          show (if _ ≤ _ ∧ _ < _ then _ else _) = _
          rw [if_pos ⟨Nat.le_add_right _ _, by omega⟩]
          congr 1
          omega
        · have hi' : i < m := by omega
          have e1 := choiceRowStart_rho tw H W ps cr c i
          have e2 := choiceRowStart_rho tw H W ps cr c m
          have hd := @scanline_disjoint tw W ps (cr * H + i) (cr * H + m) c c
            hcw hcw (Or.inl (by omega))
          show (if _ ≤ _ ∧ _ < _ then _ else _) = _
          rw [if_neg (by omega)]
          exact hwrit i hi' k hk
      · intro idx hnone
        show (if _ ≤ _ ∧ _ < _ then _ else _) = _
        rw [if_neg (hnone m (Nat.lt_succ_self m))]
        exact hkeep idx (fun i hi => hnone i (by omega))

/-- `blitTile` succeeds whenever its destination scanlines fit the buffer,
writes the tile's band verbatim and leaves everything else unchanged. -/
lemma blitTile_spec (terrain : Image) (tw th : Nat) (dst : Buffer)
    (tile : Nat × Nat)
    (hdst : ∀ i < terrain.height,
      choiceRowStart tw terrain.height terrain.width terrain.pixelSize
        (th / terrain.height - tile.1 - 1) tile.2 i
        + terrain.width * terrain.pixelSize ≤ dst.len)
    (hsrc : terrain.buf.len
      = terrain.width * terrain.height * terrain.pixelSize)
    (hcw : (tile.2 + 1) * terrain.width ≤ tw) :
    ∃ out, blitTile terrain tw th dst tile = .ok out ∧ out.len = dst.len ∧
      (∀ i < terrain.height, ∀ k < terrain.width * terrain.pixelSize,
        out.data (choiceRowStart tw terrain.height terrain.width
          terrain.pixelSize (th / terrain.height - tile.1 - 1) tile.2 i + k)
          = terrain.buf.data (i * (terrain.width * terrain.pixelSize) + k)) ∧
      (∀ idx,
        (∀ i < terrain.height,
          ¬(choiceRowStart tw terrain.height terrain.width terrain.pixelSize
              (th / terrain.height - tile.1 - 1) tile.2 i ≤ idx ∧
            idx < choiceRowStart tw terrain.height terrain.width
              terrain.pixelSize (th / terrain.height - tile.1 - 1) tile.2 i
              + terrain.width * terrain.pixelSize)) →
        out.data idx = dst.data idx) := by
  obtain ⟨out, hfold, hlen, hwrit, hkeep⟩ :=
    copy_rows_spec terrain.buf terrain.width terrain.height terrain.pixelSize
      tw (th / terrain.height - tile.1 - 1) tile.2 dst hdst hsrc hcw
      terrain.height (le_refl _)
  refine ⟨out, ?_, hlen, hwrit, hkeep⟩
  rw [blitTile]
  exact hfold

/-- The full blit loop over a list of tile offsets, starting from the
all-zero buffer: it succeeds, each processed tile's band holds a verbatim
copy of the base tile, and every byte in no processed band is zero. -/
lemma tiles_fold_spec (terrain : Image) (Mr Mc : Nat)
    (hsrc : terrain.buf.len
      = terrain.width * terrain.height * terrain.pixelSize) :
    ∀ pre : List (Nat × Nat),
      (∀ t ∈ pre, t.1 + 1 ≤ Mr ∧ t.2 + 1 ≤ Mc) →
      ∃ out,
        pre.foldlM
          (blitTile terrain (Mc * terrain.width) (Mr * terrain.height))
          ⟨Mc * terrain.width * (Mr * terrain.height) * terrain.pixelSize,
            fun _ => 0⟩ = .ok out ∧
        out.len = Mc * terrain.width * (Mr * terrain.height)
          * terrain.pixelSize ∧
        (∀ t ∈ pre, ∀ i < terrain.height,
          ∀ k < terrain.width * terrain.pixelSize,
          out.data (choiceRowStart (Mc * terrain.width) terrain.height
            terrain.width terrain.pixelSize
            (Mr * terrain.height / terrain.height - t.1 - 1) t.2 i + k)
            = terrain.buf.data (i * (terrain.width * terrain.pixelSize) + k)) ∧
        (∀ idx,
          (∀ t ∈ pre, ∀ i < terrain.height,
            ¬(choiceRowStart (Mc * terrain.width) terrain.height
                terrain.width terrain.pixelSize
                (Mr * terrain.height / terrain.height - t.1 - 1) t.2 i ≤ idx ∧
              idx < choiceRowStart (Mc * terrain.width) terrain.height
                terrain.width terrain.pixelSize
                (Mr * terrain.height / terrain.height - t.1 - 1) t.2 i
                + terrain.width * terrain.pixelSize)) →
          out.data idx = 0) := by
  intro pre
  induction pre using List.reverseRecOn with
  | nil =>
      intro _
      refine ⟨_, by rw [List.foldlM_nil]; rfl, rfl, ?_, ?_⟩
      · intro t ht
        cases ht
      · intro idx _
        rfl
  | append_singleton l a ih =>
      intro hbounds
      obtain ⟨out, hfold, hlen, hwrit, hkeep⟩ :=
        ih (fun t ht => hbounds t (List.mem_append_left _ ht))
      have hab := hbounds a (List.mem_append_right _ (List.mem_singleton_self a))
      have hMr1 : 1 ≤ Mr := by omega
      have hcw : (a.2 + 1) * terrain.width ≤ Mc * terrain.width :=
        Nat.mul_le_mul_right _ hab.2
      have hdst : ∀ i < terrain.height,
          choiceRowStart (Mc * terrain.width) terrain.height terrain.width
            terrain.pixelSize
            (Mr * terrain.height / terrain.height - a.1 - 1) a.2 i
            + terrain.width * terrain.pixelSize ≤ out.len := by
        intro i hi
        have hH : 0 < terrain.height := by omega
        rw [hlen, Nat.mul_div_cancel _ hH]
        exact choiceRowStart_le hcw (by omega) hi
      obtain ⟨out2, hblit, hlen2, hwrit2, hkeep2⟩ :=
        blitTile_spec terrain (Mc * terrain.width) (Mr * terrain.height)
          out a hdst hsrc hcw
      have hsplit :
          (l ++ [a]).foldlM
            (blitTile terrain (Mc * terrain.width) (Mr * terrain.height))
            ⟨Mc * terrain.width * (Mr * terrain.height) * terrain.pixelSize,
              fun _ => 0⟩ = .ok out2 := by
        rw [List.foldlM_append, hfold]
        show (blitTile terrain (Mc * terrain.width) (Mr * terrain.height)
          out a >>= pure) = .ok out2
        rw [hblit]
        rfl
      refine ⟨out2, hsplit, hlen2.trans hlen, ?_, ?_⟩
      · intro t ht i hi k hk
        rcases List.mem_append.mp ht with htl | hta
        · -- a previously processed tile: the new blit either misses its
          -- band or rewrites it with identical bytes
          have hbt := hbounds t (List.mem_append_left _ htl)
          have hH : 0 < terrain.height := by omega
          by_cases hhit : ∃ i2, i2 < terrain.height ∧
              choiceRowStart (Mc * terrain.width) terrain.height terrain.width
                terrain.pixelSize
                (Mr * terrain.height / terrain.height - a.1 - 1) a.2 i2
                ≤ choiceRowStart (Mc * terrain.width) terrain.height
                  terrain.width terrain.pixelSize
                  (Mr * terrain.height / terrain.height - t.1 - 1) t.2 i + k ∧
              choiceRowStart (Mc * terrain.width) terrain.height terrain.width
                terrain.pixelSize
                (Mr * terrain.height / terrain.height - t.1 - 1) t.2 i + k
                < choiceRowStart (Mc * terrain.width) terrain.height
                  terrain.width terrain.pixelSize
                  (Mr * terrain.height / terrain.height - a.1 - 1) a.2 i2
                  + terrain.width * terrain.pixelSize
          · obtain ⟨i2, hi2, hge, hlt⟩ := hhit
            have et := choiceRowStart_rho (Mc * terrain.width) terrain.height
              terrain.width terrain.pixelSize
              (Mr * terrain.height / terrain.height - t.1 - 1) t.2 i
            have ea := choiceRowStart_rho (Mc * terrain.width) terrain.height
              terrain.width terrain.pixelSize
              (Mr * terrain.height / terrain.height - a.1 - 1) a.2 i2
            by_cases hpair :
                (Mr * terrain.height / terrain.height - t.1 - 1)
                    * terrain.height + i
                  = (Mr * terrain.height / terrain.height - a.1 - 1)
                    * terrain.height + i2 ∧ t.2 = a.2
            · obtain ⟨hrho, hcol⟩ := hpair
              obtain ⟨hcr, hii⟩ := block_inj hi hi2 hrho
              have hSeq :
                  choiceRowStart (Mc * terrain.width) terrain.height
                    terrain.width terrain.pixelSize
                    (Mr * terrain.height / terrain.height - t.1 - 1) t.2 i
                  = choiceRowStart (Mc * terrain.width) terrain.height
                    terrain.width terrain.pixelSize
                    (Mr * terrain.height / terrain.height - a.1 - 1) a.2 i2 := by
                rw [et, ea, hrho, hcol]
              have hwv := hwrit2 i2 hi2
                (choiceRowStart (Mc * terrain.width) terrain.height
                  terrain.width terrain.pixelSize
                  (Mr * terrain.height / terrain.height - t.1 - 1) t.2 i + k
                  - choiceRowStart (Mc * terrain.width) terrain.height
                    terrain.width terrain.pixelSize
                    (Mr * terrain.height / terrain.height - a.1 - 1) a.2 i2)
                (by omega)
              have haddr :
                  choiceRowStart (Mc * terrain.width) terrain.height
                    terrain.width terrain.pixelSize
                    (Mr * terrain.height / terrain.height - a.1 - 1) a.2 i2
                  + (choiceRowStart (Mc * terrain.width) terrain.height
                      terrain.width terrain.pixelSize
                      (Mr * terrain.height / terrain.height - t.1 - 1) t.2 i
                      + k
                    - choiceRowStart (Mc * terrain.width) terrain.height
                      terrain.width terrain.pixelSize
                      (Mr * terrain.height / terrain.height - a.1 - 1) a.2 i2)
                  = choiceRowStart (Mc * terrain.width) terrain.height
                    terrain.width terrain.pixelSize
                    (Mr * terrain.height / terrain.height - t.1 - 1) t.2 i
                    + k := by omega
              have hoff :
                  choiceRowStart (Mc * terrain.width) terrain.height
                    terrain.width terrain.pixelSize
                    (Mr * terrain.height / terrain.height - t.1 - 1) t.2 i + k
                  - choiceRowStart (Mc * terrain.width) terrain.height
                    terrain.width terrain.pixelSize
                    (Mr * terrain.height / terrain.height - a.1 - 1) a.2 i2
                  = k := by omega
              rw [haddr, hoff, ← hii] at hwv
              exact hwv
            · have hne2 :
                  (Mr * terrain.height / terrain.height - t.1 - 1)
                      * terrain.height + i
                    ≠ (Mr * terrain.height / terrain.height - a.1 - 1)
                      * terrain.height + i2 ∨ t.2 ≠ a.2 := by
                tauto
              have hd := @scanline_disjoint
                (Mc * terrain.width) terrain.width terrain.pixelSize
                ((Mr * terrain.height / terrain.height - t.1 - 1)
                  * terrain.height + i)
                ((Mr * terrain.height / terrain.height - a.1 - 1)
                  * terrain.height + i2)
                t.2 a.2
                (Nat.mul_le_mul_right _ hbt.2)
                (Nat.mul_le_mul_right _ hab.2) hne2
              omega
          · have huntouched := hkeep2
              (choiceRowStart (Mc * terrain.width) terrain.height
                terrain.width terrain.pixelSize
                (Mr * terrain.height / terrain.height - t.1 - 1) t.2 i + k)
              (fun i2 hi2 hcontra => hhit ⟨i2, hi2, hcontra.1, hcontra.2⟩)
            rw [huntouched]
            exact hwrit t htl i hi k hk
        · have hta' : t = a := List.mem_singleton.mp hta
          subst hta'
          exact hwrit2 i hi k hk
      · intro idx hnone
        have h1 : out2.data idx = out.data idx :=
          hkeep2 idx (fun i hi =>
            hnone a (List.mem_append_right _ (List.mem_singleton_self a)) i hi)
        rw [h1]
        exact hkeep idx (fun t ht i hi =>
          hnone t (List.mem_append_left _ ht) i hi)

/-- Full characterisation of `generateChoiceImage` on a non-empty tile
list and a well-formed base tile image: dimensions, verbatim bands,
transparency elsewhere. -/
lemma generateChoiceImage_spec (tiles : List (Nat × Nat)) (terrain : Image)
    (hne : tiles ≠ [])
    (hwf : terrain.buf.len
      = terrain.width * terrain.height * terrain.pixelSize) :
    ∃ buf,
      generateChoiceImage tiles terrain
        = .ok ⟨maxColPlus1 tiles * terrain.width,
            maxRowPlus1 tiles * terrain.height, terrain.pixelSize, buf⟩ ∧
      buf.len = maxColPlus1 tiles * terrain.width
        * (maxRowPlus1 tiles * terrain.height) * terrain.pixelSize ∧
      (∀ t ∈ tiles, ∀ i < terrain.height,
        ∀ k < terrain.width * terrain.pixelSize,
        buf.data (scanlineStart tiles terrain t i + k)
          = terrain.buf.data (i * (terrain.width * terrain.pixelSize) + k)) ∧
      (∀ idx, (∀ t ∈ tiles, ¬ inTileBand tiles terrain t idx) →
        buf.data idx = 0) := by
  obtain ⟨out, hfold, hlen, hwrit, hkeep⟩ :=
    tiles_fold_spec terrain (maxRowPlus1 tiles) (maxColPlus1 tiles) hwf tiles
      (fun t ht => ⟨mem_le_maxRowPlus1 ht, mem_le_maxColPlus1 ht⟩)
  have hie : tiles.isEmpty = false := by
    cases tiles with
    | nil => exact absurd rfl hne
    | cons x xs => rfl
  refine ⟨out, ?_, hlen, ?_, ?_⟩
  · rw [generateChoiceImage, if_neg (by simp [hie])]
    show Except.map
      (fun buf => Image.mk (maxColPlus1 tiles * terrain.width)
        (maxRowPlus1 tiles * terrain.height) terrain.pixelSize buf)
      (tiles.foldlM
        (blitTile terrain (maxColPlus1 tiles * terrain.width)
          (maxRowPlus1 tiles * terrain.height))
        (Buffer.mk (maxColPlus1 tiles * terrain.width * (maxRowPlus1 tiles
          * terrain.height) * terrain.pixelSize) (fun _ => 0)))
      = Except.ok (Image.mk (maxColPlus1 tiles * terrain.width)
        (maxRowPlus1 tiles * terrain.height) terrain.pixelSize out)
    rw [hfold]
    rfl
  · intro t ht i hi k hk
    have hH : 0 < terrain.height := by omega
    have hdiv : maxRowPlus1 tiles * terrain.height / terrain.height
        = maxRowPlus1 tiles := Nat.mul_div_cancel _ hH
    rw [scanlineStart, ← hdiv]
    exact hwrit t ht i hi k hk
  · intro idx hband
    refine hkeep idx (fun t ht i hi hcontra => ?_)
    have hH : 0 < terrain.height := by omega
    have hdiv : maxRowPlus1 tiles * terrain.height / terrain.height
        = maxRowPlus1 tiles := Nat.mul_div_cancel _ hH
    rw [hdiv] at hcontra
    exact hband t ht ⟨i, hi, hcontra.1, hcontra.2⟩

/-- A fold whose steps never return a given error cannot return it. -/
lemma foldlM_ne_error {α β : Type} (step : β → α → Except GenError β)
    (e : GenError) (hstep : ∀ b a, step b a ≠ .error e) :
    ∀ (l : List α) (b : β), l.foldlM step b ≠ .error e := by
  intro l
  induction l with
  | nil =>
      intro b h
      rw [List.foldlM_nil] at h
      exact Except.noConfusion h
  | cons a l ih =>
      intro b h
      rw [List.foldlM_cons] at h
      cases hs : step b a with
      | ok b2 =>
          rw [hs] at h
          exact ih b2 h
      | error e2 =>
          rw [hs] at h
          have h2 : (Except.error e2 : Except GenError β) = .error e := h
          have he : e2 = e := by injection h2
          exact hstep b a (by rw [hs, he])

/-- A slice copy never fails with `EmptyTileSet`. -/
lemma copyFromSlice_ne_empty (dst : Buffer) (s : Nat) (src : Buffer)
    (ss L : Nat) : copyFromSlice dst s src ss L ≠ .error .emptyTileSet := by
  rw [copyFromSlice]
  split
  · exact fun h => Except.noConfusion h
  · intro h
    have h2 : GenError.sliceOutOfBounds = GenError.emptyTileSet := by
      injection h
    exact GenError.noConfusion h2

/-- A tile blit never fails with `EmptyTileSet`. -/
lemma blitTile_ne_empty (terrain : Image) (tw th : Nat) (b : Buffer)
    (t : Nat × Nat) : blitTile terrain tw th b t ≠ .error .emptyTileSet := by
  rw [blitTile]
  exact foldlM_ne_error _ .emptyTileSet
    (fun b2 row => copyFromSlice_ne_empty _ _ _ _ _) _ _

/-- C5: for every non-empty tile-offset list and every base tile image,
the composite texture has width `(maxColumnOffset + 1) × W` and height
`(maxRowOffset + 1) × H` (the bounding-box maxima of `Choice::size`). -/
theorem generate_output_dimensions (tiles : List (Nat × Nat))
    (terrain : Image) (hne : tiles ≠ [])
    (hwf : terrain.buf.len
      = terrain.width * terrain.height * terrain.pixelSize) :
    ∃ img, generateChoiceImage tiles terrain = .ok img ∧
      img.width = maxColPlus1 tiles * terrain.width ∧
      img.height = maxRowPlus1 tiles * terrain.height := by
  obtain ⟨buf, hok, -, -, -⟩ := generateChoiceImage_spec tiles terrain hne hwf
  exact ⟨_, hok, rfl, rfl⟩

/-- Witness for C5 at a concrete two-tile shape and a 2×3 base tile. -/
theorem generate_output_dimensions_witness :
    ([(0, 1), (2, 0)] : List (Nat × Nat)) ≠ [] ∧
      (Image.mk 2 3 4 (Buffer.mk 24 fun _ => 9)).buf.len
        = (Image.mk 2 3 4 (Buffer.mk 24 fun _ => 9)).width
          * (Image.mk 2 3 4 (Buffer.mk 24 fun _ => 9)).height
          * (Image.mk 2 3 4 (Buffer.mk 24 fun _ => 9)).pixelSize ∧
      ∃ img, generateChoiceImage [(0, 1), (2, 0)]
          (Image.mk 2 3 4 (Buffer.mk 24 fun _ => 9)) = .ok img ∧
        img.width = maxColPlus1 [(0, 1), (2, 0)]
          * (Image.mk 2 3 4 (Buffer.mk 24 fun _ => 9)).width ∧
        img.height = maxRowPlus1 [(0, 1), (2, 0)]
          * (Image.mk 2 3 4 (Buffer.mk 24 fun _ => 9)).height :=
  ⟨by simp, rfl,
    generate_output_dimensions [(0, 1), (2, 0)]
      (Image.mk 2 3 4 (Buffer.mk 24 fun _ => 9)) (by simp) rfl⟩

/-- C6: every tile offset `(r, c)` is blitted verbatim — scanline by
scanline — into output row-band `maxRowOffset − r` and column-band `c`,
and every byte outside every tile band is zero, as initialized. -/
theorem generate_blit_verbatim_transparent (tiles : List (Nat × Nat))
    (terrain : Image) (hne : tiles ≠ [])
    (hwf : terrain.buf.len
      = terrain.width * terrain.height * terrain.pixelSize) :
    ∃ img, generateChoiceImage tiles terrain = .ok img ∧
      (∀ t ∈ tiles, ∀ i < terrain.height,
        ∀ k < terrain.width * terrain.pixelSize,
        img.buf.data (scanlineStart tiles terrain t i + k)
          = terrain.buf.data (i * (terrain.width * terrain.pixelSize) + k)) ∧
      (∀ idx, idx < img.buf.len →
        (∀ t ∈ tiles, ¬ inTileBand tiles terrain t idx) →
        img.buf.data idx = 0) := by
  obtain ⟨buf, hok, hlen, hwrit, hkeep⟩ :=
    generateChoiceImage_spec tiles terrain hne hwf
  exact ⟨_, hok, hwrit, fun idx _ hband => hkeep idx hband⟩

/-- Witness for C6 at a concrete shape and base tile. -/
theorem generate_blit_verbatim_transparent_witness :
    ([(0, 0), (1, 2)] : List (Nat × Nat)) ≠ [] ∧
      (Image.mk 1 2 1 (Buffer.mk 2 fun i => i + 3)).buf.len
        = (Image.mk 1 2 1 (Buffer.mk 2 fun i => i + 3)).width
          * (Image.mk 1 2 1 (Buffer.mk 2 fun i => i + 3)).height
          * (Image.mk 1 2 1 (Buffer.mk 2 fun i => i + 3)).pixelSize ∧
      ∃ img, generateChoiceImage [(0, 0), (1, 2)]
          (Image.mk 1 2 1 (Buffer.mk 2 fun i => i + 3)) = .ok img ∧
        (∀ t ∈ ([(0, 0), (1, 2)] : List (Nat × Nat)),
          ∀ i < (Image.mk 1 2 1 (Buffer.mk 2 fun i => i + 3)).height,
          ∀ k < (Image.mk 1 2 1 (Buffer.mk 2 fun i => i + 3)).width
            * (Image.mk 1 2 1 (Buffer.mk 2 fun i => i + 3)).pixelSize,
          img.buf.data (scanlineStart [(0, 0), (1, 2)]
            (Image.mk 1 2 1 (Buffer.mk 2 fun i => i + 3)) t i + k)
            = (Image.mk 1 2 1 (Buffer.mk 2 fun i => i + 3)).buf.data
              (i * ((Image.mk 1 2 1 (Buffer.mk 2 fun i => i + 3)).width
                * (Image.mk 1 2 1 (Buffer.mk 2 fun i => i + 3)).pixelSize)
                + k)) ∧
        (∀ idx, idx < img.buf.len →
          (∀ t ∈ ([(0, 0), (1, 2)] : List (Nat × Nat)),
            ¬ inTileBand [(0, 0), (1, 2)]
              (Image.mk 1 2 1 (Buffer.mk 2 fun i => i + 3)) t idx) →
          img.buf.data idx = 0) :=
  ⟨by simp, rfl,
    generate_blit_verbatim_transparent [(0, 0), (1, 2)]
      (Image.mk 1 2 1 (Buffer.mk 2 fun i => i + 3)) (by simp) rfl⟩

/-- C8: the generator fails with `EmptyTileSet` exactly when the tile set
is empty; a non-empty tile set never produces that error. -/
theorem generate_empty_tile_set_iff (tiles : List (Nat × Nat))
    (terrain : Image) :
    generateChoiceImage tiles terrain = .error .emptyTileSet ↔ tiles = [] := by
  constructor
  · intro h
    by_contra hne
    have hie : tiles.isEmpty = false := by
      cases tiles with
      | nil => exact absurd rfl hne
      | cons x xs => rfl
    rw [generateChoiceImage, if_neg (by simp [hie])] at h
    have h2 : Except.map
        (fun buf => Image.mk (maxColPlus1 tiles * terrain.width)
          (maxRowPlus1 tiles * terrain.height) terrain.pixelSize buf)
        (tiles.foldlM
          (blitTile terrain (maxColPlus1 tiles * terrain.width)
            (maxRowPlus1 tiles * terrain.height))
          (Buffer.mk (maxColPlus1 tiles * terrain.width * (maxRowPlus1 tiles
            * terrain.height) * terrain.pixelSize) (fun _ => 0)))
        = .error .emptyTileSet := h
    cases hres : tiles.foldlM
        (blitTile terrain (maxColPlus1 tiles * terrain.width)
          (maxRowPlus1 tiles * terrain.height))
        (Buffer.mk (maxColPlus1 tiles * terrain.width * (maxRowPlus1 tiles
          * terrain.height) * terrain.pixelSize) (fun _ => 0)) with
    | ok b =>
        rw [hres] at h2
        exact Except.noConfusion h2
    | error e =>
        rw [hres] at h2
        have h3 : (Except.error e : Except GenError Image)
            = .error .emptyTileSet := h2
        have he : e = .emptyTileSet := by injection h3
        exact foldlM_ne_error _ .emptyTileSet
          (fun b a => blitTile_ne_empty terrain _ _ b a) tiles _
          (hres.trans (by rw [he]))
  · intro h
    subst h
    rfl

/-- C10: in the total embedding, for every non-empty tile list (duplicates
allowed) and every base tile whose data buffer has length
`width × height × pixel_size`, the blit loop's slice ranges all lie in
bounds: the generator returns `ok`, never the out-of-bounds error. -/
theorem generate_blit_in_bounds (tiles : List (Nat × Nat)) (terrain : Image)
    (hne : tiles ≠ [])
    (hwf : terrain.buf.len
      = terrain.width * terrain.height * terrain.pixelSize) :
    ∃ img, generateChoiceImage tiles terrain = .ok img := by
  obtain ⟨buf, hok, -, -, -⟩ := generateChoiceImage_spec tiles terrain hne hwf
  exact ⟨_, hok⟩

/-- Witness for C10 at a shape with a duplicated tile offset. -/
theorem generate_blit_in_bounds_witness :
    ([(0, 0), (0, 0), (1, 1)] : List (Nat × Nat)) ≠ [] ∧
      (Image.mk 3 1 2 (Buffer.mk 6 fun _ => 1)).buf.len
        = (Image.mk 3 1 2 (Buffer.mk 6 fun _ => 1)).width
          * (Image.mk 3 1 2 (Buffer.mk 6 fun _ => 1)).height
          * (Image.mk 3 1 2 (Buffer.mk 6 fun _ => 1)).pixelSize ∧
      ∃ img, generateChoiceImage [(0, 0), (0, 0), (1, 1)]
          (Image.mk 3 1 2 (Buffer.mk 6 fun _ => 1)) = .ok img :=
  ⟨by simp, rfl,
    generate_blit_in_bounds [(0, 0), (0, 0), (1, 1)]
      (Image.mk 3 1 2 (Buffer.mk 6 fun _ => 1)) (by simp) rfl⟩

-- Dependency pipeline, from `track_resources` / `track_resource` in
-- src/resource_tracking.rs (and the analogous `track_resource` loop in
-- src/asset_manager.rs).

/-- One `PreUpdate` run of `track_resources` followed by command flush,
iterated for `n` ticks.  `α` is the stage key (`TypeId` in the source),
`loadedAt n s` is `asset_server.is_loaded_with_dependencies` for all of
stage `s`'s tracked handles at tick `n`.  Each tick, every registered
stage's `track_resource` runs once; a stage whose handles are all loaded
queues its reaction (recorded as `(tick, stage)` in the trace) and its own
removal from the callback map, which takes effect before the next tick.
Returns the still-registered stages and the trace of fired reactions. -/
def runTicks {α : Type} (loadedAt : Nat → α → Bool) (init : List α) :
    Nat → List α × List (Nat × α)
  | 0 => (init, [])
  | n + 1 =>
      let prev := runTicks loadedAt init n
      (prev.1.filter (fun s => !(loadedAt n s)),
       prev.2 ++ (prev.1.filter (loadedAt n)).map (fun s => (n, s)))

lemma filter_not_partition {α : Type} (l : List α) (p : α → Bool) :
    (l.filter p).length + (l.filter (fun x => !(p x))).length = l.length := by
  induction l with
  | nil => rfl
  | cons x l ih =>
      cases hp : p x <;> simp [List.filter_cons, hp] <;> omega

lemma filter_filter_partition {α : Type} (l : List α) (p q : α → Bool) :
    ((l.filter p).filter q).length
      + ((l.filter (fun x => !(p x))).filter q).length
      = (l.filter q).length := by
  rw [List.filter_comm q p l, List.filter_comm q (fun x => !(p x)) l]
  exact filter_not_partition (l.filter q) p

lemma filter_map_pair_length {α : Type} [DecidableEq α] (l : List α)
    (n : Nat) (s : α) :
    ((l.map (fun x => (n, x))).filter (fun e => e.2 = s)).length
      = (l.filter (fun x => x = s)).length := by
  induction l with
  | nil => rfl
  | cons x l ih =>
      by_cases h : x = s <;> simp [List.filter_cons, h, ih]

/-- Conservation: a stage's copies still registered plus its fired
reactions equal its initially registered copies. -/
lemma runTicks_invariant {α : Type} [DecidableEq α]
    (loadedAt : Nat → α → Bool) (init : List α) (s : α) :
    ∀ n, ((runTicks loadedAt init n).1.filter (fun x => x = s)).length
      + ((runTicks loadedAt init n).2.filter (fun e => e.2 = s)).length
      = (init.filter (fun x => x = s)).length := by
  intro n
  induction n with
  | zero => simp [runTicks]
  | succ n ih =>
      rw [show runTicks loadedAt init (n + 1)
        = ((runTicks loadedAt init n).1.filter
            (fun s => !(loadedAt n s)),
          (runTicks loadedAt init n).2
            ++ ((runTicks loadedAt init n).1.filter (loadedAt n)).map
              (fun s => (n, s))) from rfl]
      have hpart := filter_filter_partition (runTicks loadedAt init n).1
        (loadedAt n) (fun x => decide (x = s))
      have hmap := filter_map_pair_length
        ((runTicks loadedAt init n).1.filter (loadedAt n)) n s
      simp only [List.filter_append, List.length_append]
      omega

/-- C7: a dependency-pipeline stage's reaction runs at most once over any
number of ticks: its trace entries never exceed one, and once it has fired
it is no longer in the set polled each tick — no matter how the loaded
predicate keeps answering on later ticks (absent re-registration, which
`runTicks` does not model). -/
theorem stage_reaction_at_most_once {α : Type} [DecidableEq α]
    (loadedAt : Nat → α → Bool) (init : List α) (n : Nat) (s : α)
    (hcount : (init.filter (fun x => x = s)).length ≤ 1) :
    ((runTicks loadedAt init n).2.filter (fun e => e.2 = s)).length ≤ 1 ∧
    (∀ m, (m, s) ∈ (runTicks loadedAt init n).2 →
      s ∉ (runTicks loadedAt init n).1) := by
  have hinv := runTicks_invariant loadedAt init s n
  constructor
  · omega
  · intro m hm hs
    have h1 : 0 < ((runTicks loadedAt init n).1.filter
        (fun x => x = s)).length :=
      List.length_pos_of_mem (List.mem_filter.mpr ⟨hs, by simp⟩)
    have h2 : 0 < ((runTicks loadedAt init n).2.filter
        (fun e => e.2 = s)).length :=
      List.length_pos_of_mem (List.mem_filter.mpr ⟨hm, by simp⟩)
    omega

/-- Witness for C7: two stages whose handles are loaded from the start,
run for three ticks. -/
theorem stage_reaction_at_most_once_witness :
    (([0, 1] : List Nat).filter (fun x => x = 0)).length ≤ 1 ∧
      (((runTicks (fun _ _ => true) [0, 1] 3).2.filter
        (fun e => e.2 = 0)).length ≤ 1 ∧
      (∀ m, (m, 0) ∈ (runTicks (fun _ _ => true) [0, 1] 3).2 →
        0 ∉ (runTicks (fun _ _ => true) [0, 1] 3).1)) :=
  ⟨by decide,
    stage_reaction_at_most_once (fun _ _ => true) [0, 1] 3 0 (by decide)⟩
